import Mathlib

/-!
Verification of the ProgressPoint backend profile-statistics and
streak-computation engine (`src/me/me.controller.ts` and its day-key /
streak utilities).

Data model: workouts carry a start timestamp, an optional duration in
minutes, and a list of exercise records; each exercise record carries an
exercise identifier and a list of sets; each set carries a repetition
count and a weight.  Weights are modelled as rationals (the source treats
them as non-negative reals, unit-agnostic).

A timestamp is modelled as a calendar day (an integer day index in the
single reference time zone) together with a time-of-day component; the
day-key normalizer truncates a timestamp to its day.
-/

namespace ProgressPoint

/-- A workout start timestamp: calendar day index (in the single reference
time zone) plus a sub-day component that day-key truncation discards. -/
structure Timestamp where
  day : Int
  minuteOfDay : Nat
deriving DecidableEq, Repr

/-- One set of an exercise: repetitions and weight
(`sets: { repetitions, weight }` in the controller's query). -/
structure WorkoutSet where
  repetitions : Nat
  weight : ℚ
deriving DecidableEq, Repr

/-- One exercise record inside a workout
(`workoutExercises: { exerciseId, sets }`). -/
structure WorkoutExercise where
  exerciseId : String
  sets : List WorkoutSet
deriving DecidableEq, Repr

/-- One workout as fetched by the profile query:
`{ startedAt, durationMinutes, workoutExercises }`.  The list of workouts
handed to the engine is in descending `startedAt` order. -/
structure Workout where
  startedAt : Timestamp
  durationMinutes : Option Nat
  workoutExercises : List WorkoutExercise
deriving DecidableEq, Repr

/-- Exercise metadata resolved for the favorite exercise
(`select: { id, name, category }`). -/
structure ExerciseMeta where
  id : String
  name : String
  category : String
deriving DecidableEq, Repr

/-- Modelled from the spec: the DayKey of a timestamp — truncation to
calendar-day granularity in the single reference time zone
(`src/me/utils.ts` is not part of the provided sources). -/
def dayKey (t : Timestamp) : Int := t.day

/-- Modelled from the spec: insert a DayKey into a strictly-descending
duplicate-free list, keeping it strictly descending and duplicate-free. -/
def insertDesc (x : Int) : List Int → List Int
  | [] => [x]
  | y :: ys =>
    if x > y then x :: y :: ys
    else if x = y then y :: ys
    else y :: insertDesc x ys

/-- Modelled from the spec: `uniqueSortedDateKeys` of `src/me/utils.ts` —
collapse the workout start timestamps to a deduplicated DayKey sequence
sorted strictly descending (most recent first). -/
def uniqueSortedDateKeys (ts : List Timestamp) : List Int :=
  ts.foldl (fun acc t => insertDesc (dayKey t) acc) []

/-- Modelled from the spec: the streak walk — count the days of the
descending DayKey sequence that each sit exactly one day before the
previously counted day, stopping at the first break of the chain. -/
def countChain (prev : Int) : List Int → Nat
  | [] => 0
  | d :: ds => if d = prev - 1 then 1 + countChain d ds else 0

/-- Modelled from the spec: the streak of a descending DayKey sequence.
Empty sequence: 0.  Most recent day neither today nor yesterday: 0.
Otherwise 1 for the most recent day plus the exact-one-day chain walk. -/
def computeStreak (today : Int) : List Int → Nat
  | [] => 0
  | mostRecent :: rest =>
    if mostRecent = today ∨ mostRecent = today - 1 then
      1 + countChain mostRecent rest
    else 0

/-- Modelled from the spec: `computeStreakFromWorkouts` of
`src/me/utils.ts` — normalize the start timestamps to DayKeys and walk
the streak relative to the reference clock's `today`. -/
def computeStreakFromWorkouts (today : Int) (ts : List Timestamp) : Nat :=
  computeStreak today (uniqueSortedDateKeys ts)

/-- Total number of workouts (`workouts.length`). -/
def totalWorkouts (ws : List Workout) : Nat := ws.length

/-- Total duration: `workouts.reduce((acc, w) => acc + (w.durationMinutes ?? 0), 0)`. -/
def totalDuration (ws : List Workout) : Nat :=
  ws.foldl (fun acc w => acc + w.durationMinutes.getD 0) 0

/-- Concatenation of the lists produced by `f`, in order — the traversal
order of the controller's nested `forEach` loops. -/
def catMap {α β : Type} (f : α → List β) : List α → List β
  | [] => []
  | x :: xs => f x ++ catMap f xs

/-- All exercise identifiers in traversal order (outer loop over workouts,
inner loop over their exercise records). -/
def allExerciseIds (ws : List Workout) : List String :=
  catMap (fun w => w.workoutExercises.map (fun we => we.exerciseId)) ws

/-- Number of distinct exercise identifiers across all workouts — the size
of the `exerciseIds` `Set` the controller fills in its double `forEach`. -/
def totalExercisesUsed (ws : List Workout) : Nat :=
  (allExerciseIds ws).dedup.length

/-- Total sets: `totalSets += we.sets.length` over the nested loops. -/
def totalSets (ws : List Workout) : Nat :=
  ws.foldl
    (fun acc w => w.workoutExercises.foldl (fun a we => a + we.sets.length) acc) 0

/-- Total repetitions: `totalReps += s.repetitions` over the nested loops. -/
def totalReps (ws : List Workout) : Nat :=
  ws.foldl
    (fun acc w => w.workoutExercises.foldl
      (fun a we => we.sets.foldl (fun b s => b + s.repetitions) a) acc) 0

/-- Total volume: `totalVolume += s.repetitions * s.weight` over the nested
loops. -/
def totalVolume (ws : List Workout) : ℚ :=
  ws.foldl
    (fun acc w => w.workoutExercises.foldl
      (fun a we => we.sets.foldl
        (fun b s => b + (s.repetitions : ℚ) * s.weight) a) acc) 0

/-- Heaviest weight: `if (s.weight > heaviestWeight) heaviestWeight = s.weight`
over the nested loops, starting from 0. -/
def heaviestWeight (ws : List Workout) : ℚ :=
  ws.foldl
    (fun acc w => w.workoutExercises.foldl
      (fun a we => we.sets.foldl
        (fun b s => if s.weight > b then s.weight else b) a) acc) 0

/-- One frequency-map update:
`exerciseFrequency.set(id, (exerciseFrequency.get(id) || 0) + 1)` on a JS
`Map`, modelled as an insertion-ordered association list — an existing key
is bumped in place, a new key is appended at the end. -/
def bumpFreq : List (String × Nat) → String → List (String × Nat)
  | [], k => [(k, 1)]
  | (k', c) :: rest, k =>
    if k' = k then (k', c + 1) :: rest else (k', c) :: bumpFreq rest k

/-- The exercise-frequency map after the controller's nested loops, as an
insertion-ordered association list. -/
def exerciseFrequency (ws : List Workout) : List (String × Nat) :=
  ws.foldl
    (fun m w => w.workoutExercises.foldl (fun m we => bumpFreq m we.exerciseId) m) []

/-- One step of the favorite-exercise selection loop:
`if (count > maxFrequency) { maxFrequency = count; favoriteExerciseId = exerciseId }`. -/
def stepFav (acc : Option String × Nat) (p : String × Nat) : Option String × Nat :=
  if p.2 > acc.2 then (some p.1, p.2) else acc

/-- The favorite-exercise selection loop over the frequency map in
insertion order, starting from `favoriteExerciseId = null, maxFrequency = 0`. -/
def selectFavorite (l : List (String × Nat)) : Option String × Nat :=
  l.foldl stepFav (none, 0)

/-- The controller's `favoriteExerciseId` after the selection loop. -/
def favoriteExerciseId (ws : List Workout) : Option String :=
  (selectFavorite (exerciseFrequency ws)).1

/-- The controller's `favoriteExercise`: metadata lookup guarded by the JS
truthiness test `if (favoriteExerciseId)` (null and the empty string are
falsy); a failed lookup leaves it `null`. -/
def favoriteExercise (lookup : String → Option ExerciseMeta)
    (ws : List Workout) : Option ExerciseMeta :=
  match favoriteExerciseId ws with
  | none => none
  | some i => if i = "" then none else lookup i

/-- The statistics part of the profile response assembled by `me`
(the pass-through `user` field is omitted: it is not computed here). -/
structure MeStats where
  totalWorkouts : Nat
  currentStreak : Nat
  days : List Int
  lastWorkoutDate : Option Int
  totalDuration : Nat
  totalExercisesUsed : Nat
  totalSets : Nat
  totalReps : Nat
  totalVolume : ℚ
  heaviestWeight : ℚ
  favoriteExercise : Option ExerciseMeta
deriving DecidableEq, Repr

/-- The engine: everything the `me` controller computes from the fetched
workout list (descending `startedAt` order), the reference clock's `today`
and the exercise-metadata lookup. -/
def me (lookup : String → Option ExerciseMeta) (today : Int)
    (ws : List Workout) : MeStats :=
  { totalWorkouts := totalWorkouts ws
    currentStreak := computeStreakFromWorkouts today (ws.map (fun w => w.startedAt))
    days := uniqueSortedDateKeys (ws.map (fun w => w.startedAt))
    lastWorkoutDate := (uniqueSortedDateKeys (ws.map (fun w => w.startedAt))).head?
    totalDuration := totalDuration ws
    totalExercisesUsed := totalExercisesUsed ws
    totalSets := totalSets ws
    totalReps := totalReps ws
    totalVolume := totalVolume ws
    heaviestWeight := heaviestWeight ws
    favoriteExercise := favoriteExercise lookup ws }

/-- The perfect descending chain of `n` days below `prev`:
`[prev − 1, prev − 2, …, prev − n]`. -/
def chainFrom (prev : Int) : Nat → List Int
  | 0 => []
  | Nat.succ n => (prev - 1) :: chainFrom (prev - 1) n

/-- Record an identifier the first time it is encountered, keeping the
encounter order. -/
def addFirstSeen (acc : List String) (k : String) : List String :=
  if k ∈ acc then acc else acc ++ [k]

/-- Exercise identifiers in first-encounter order over the controller's
pass (most-recent-workout first). -/
def firstSeenOrder (ws : List Workout) : List String :=
  (allExerciseIds ws).foldl addFirstSeen []

/-- Count stored in an association list for a key (0 when absent);
reads the first matching entry, as a JS `Map` holds each key once. -/
def lookupC : List (String × Nat) → String → Nat
  | [], _ => 0
  | (k', c) :: rest, k => if k' = k then c else lookupC rest k

/-- Number of `WorkoutExerciseRecord`s that reference exercise `k` —
one per record, regardless of how many sets the record has. -/
def exerciseOccurrences (ws : List Workout) (k : String) : Nat :=
  (allExerciseIds ws).count k

/-- Two exercise records that differ only by a permutation of their sets. -/
def exPermEq (we we' : WorkoutExercise) : Prop :=
  we.exerciseId = we'.exerciseId ∧ we.sets.Perm we'.sets

/-- Two workouts that differ only by permuting the exercise records and,
inside each record, permuting its sets. -/
def workoutPermEq (w w' : Workout) : Prop :=
  w.startedAt = w'.startedAt ∧ w.durationMinutes = w'.durationMinutes ∧
    ∃ mid, List.Forall₂ exPermEq w.workoutExercises mid ∧
      mid.Perm w'.workoutExercises

/-- Volume contributed by one set: repetitions × weight. -/
def setVolume (s : WorkoutSet) : ℚ := (s.repetitions : ℚ) * s.weight

/-- Volume contributed by one exercise record. -/
def exVolume (we : WorkoutExercise) : ℚ := (we.sets.map setVolume).sum

/-- Volume contributed by one workout. -/
def workoutVolume (w : Workout) : ℚ := (w.workoutExercises.map exVolume).sum

/-- The spec's worked example: three workouts on DayKeys today (= 0),
today, today − 1, with sets (10 reps, 50), (8 reps, 55), (12 reps, 80). -/
def exampleWorkouts : List Workout :=
  [⟨⟨0, 10⟩, some 30, [⟨"bench", [⟨10, 50⟩]⟩]⟩,
   ⟨⟨0, 5⟩, some 40, [⟨"squat", [⟨8, 55⟩]⟩]⟩,
   ⟨⟨-1, 0⟩, some 50, [⟨"bench", [⟨12, 80⟩]⟩]⟩]

/-- All set weights in traversal order of the nested loops. -/
def allWeights (ws : List Workout) : List ℚ :=
  catMap (fun w => catMap (fun we => we.sets.map (fun s => s.weight)) w.workoutExercises) ws

theorem foldl_add_sum {α M : Type} [AddCommMonoid M] (f : α → M) :
    ∀ (l : List α) (n : M), l.foldl (fun a x => a + f x) n = n + (l.map f).sum := by
  intro l
  induction l with
  | nil => intro n; simp
  | cons x xs ih => intro n; simp [ih, add_assoc]

theorem foldl_catMap {α β γ : Type} (f : α → List β) (g : γ → β → γ) :
    ∀ (l : List α) (b : γ),
      (catMap f l).foldl g b = l.foldl (fun b x => (f x).foldl g b) b := by
  intro l
  induction l with
  | nil => intro b; rfl
  | cons x xs ih => intro b; simp [catMap, List.foldl_append, ih]

theorem catMap_perm {α β : Type} (f : α → List β) {l₁ l₂ : List α} (h : l₁.Perm l₂) :
    (catMap f l₁).Perm (catMap f l₂) := by
  induction h with
  | nil => exact List.Perm.nil
  | cons x h ih => exact List.Perm.append_left (f x) ih
  | swap x y l =>
    simp only [catMap]
    rw [← List.append_assoc, ← List.append_assoc]
    exact List.perm_append_comm.append_right _
  | trans h₁ h₂ ih₁ ih₂ => exact ih₁.trans ih₂

theorem mem_insertDesc : ∀ (l : List Int) (x a : Int),
    a ∈ insertDesc x l ↔ a = x ∨ a ∈ l := by
  intro l
  induction l with
  | nil => intro x a; simp [insertDesc]
  | cons y ys ih =>
    intro x a
    simp only [insertDesc]
    split
    · simp [List.mem_cons]
    · split
      · rename_i hngt heq
        subst heq
        simp only [List.mem_cons]
        tauto
      · simp only [List.mem_cons, ih x a]
        tauto

theorem pairwise_gt_insertDesc : ∀ (l : List Int) (x : Int),
    l.Pairwise (· > ·) → (insertDesc x l).Pairwise (· > ·) := by
  intro l
  induction l with
  | nil => intro x _; simp [insertDesc]
  | cons y ys ih =>
    intro x h
    rcases List.pairwise_cons.mp h with ⟨hy, hys⟩
    simp only [insertDesc]
    split
    · rename_i hxy
      refine List.pairwise_cons.mpr ⟨?_, h⟩
      intro b hb
      rcases List.mem_cons.mp hb with rfl | hb
      · exact hxy
      · exact gt_trans hxy (hy b hb)
    · split
      · exact h
      · rename_i hngt hne
        refine List.pairwise_cons.mpr ⟨?_, ih x hys⟩
        intro b hb
        rcases (mem_insertDesc ys x b).mp hb with rfl | hb
        · omega
        · exact hy b hb

theorem pairwise_gt_foldl_insertDesc : ∀ (ts : List Timestamp) (acc : List Int),
    acc.Pairwise (· > ·) →
    (ts.foldl (fun acc t => insertDesc (dayKey t) acc) acc).Pairwise (· > ·) := by
  intro ts
  induction ts with
  | nil => intro acc h; exact h
  | cons t ts ih =>
    intro acc h
    exact ih _ (pairwise_gt_insertDesc _ _ h)

theorem mem_foldl_insertDesc : ∀ (ts : List Timestamp) (acc : List Int) (a : Int),
    a ∈ ts.foldl (fun acc t => insertDesc (dayKey t) acc) acc ↔
      a ∈ acc ∨ ∃ t ∈ ts, dayKey t = a := by
  intro ts
  induction ts with
  | nil => intro acc a; simp
  | cons t ts ih =>
    intro acc a
    rw [List.foldl_cons, ih, mem_insertDesc]
    simp only [List.mem_cons]
    constructor
    · rintro (⟨rfl | h⟩ | ⟨u, hu, rfl⟩)
      · exact Or.inr ⟨t, Or.inl rfl, rfl⟩
      · exact Or.inl h
      · exact Or.inr ⟨u, Or.inr hu, rfl⟩
    · rintro (h | ⟨u, hu | hu, rfl⟩)
      · exact Or.inl (Or.inr h)
      · subst hu; exact Or.inl (Or.inl rfl)
      · exact Or.inr ⟨u, hu, rfl⟩

/-- C3: for every collection of workout start timestamps the normalizer's
output is strictly descending and duplicate-free, contains exactly the
DayKeys of the input timestamps (so same-day timestamps collapse to a
single entry), and empty input yields the empty sequence. -/
theorem uniqueSortedDateKeys_spec (ts : List Timestamp) :
    (uniqueSortedDateKeys ts).Pairwise (· > ·)
    ∧ (uniqueSortedDateKeys ts).Nodup
    ∧ (∀ a, a ∈ uniqueSortedDateKeys ts ↔ ∃ t ∈ ts, dayKey t = a)
    ∧ uniqueSortedDateKeys [] = [] := by
  have hp : (uniqueSortedDateKeys ts).Pairwise (· > ·) :=
    pairwise_gt_foldl_insertDesc ts [] (by simp)
  refine ⟨hp, hp.imp ?_, ?_, rfl⟩
  · intro a b h
    exact ne_of_gt h
  · intro a
    rw [uniqueSortedDateKeys, mem_foldl_insertDesc]
    simp

/-- C1: with a non-empty normalized DayKey sequence, a most recent day
that is neither today nor yesterday gives streak 0, while a most recent
day equal to today or yesterday gives streak at least 1. -/
theorem streak_stale_zero_recent_pos (today : Int) (ts : List Timestamp)
    (d : Int) (rest : List Int) (h : uniqueSortedDateKeys ts = d :: rest) :
    ((d ≠ today ∧ d ≠ today - 1) → computeStreakFromWorkouts today ts = 0)
    ∧ ((d = today ∨ d = today - 1) → 1 ≤ computeStreakFromWorkouts today ts) := by
  unfold computeStreakFromWorkouts
  rw [h]
  constructor
  · rintro ⟨h1, h2⟩
    simp [computeStreak, h1, h2]
  · intro hd
    rw [computeStreak, if_pos hd]
    omega

theorem streak_stale_zero_recent_pos_witness :
    uniqueSortedDateKeys [⟨-2, 0⟩] = [-2]
    ∧ computeStreakFromWorkouts 0 [⟨-2, 0⟩] = 0 :=
  ⟨rfl, (streak_stale_zero_recent_pos 0 [⟨-2, 0⟩] (-2) [] rfl).1 (by decide)⟩

theorem countChain_cons (prev d : Int) (ds : List Int) :
    countChain prev (d :: ds) = if d = prev - 1 then 1 + countChain d ds else 0 := rfl

theorem chainFrom_succ (prev : Int) (n : Nat) :
    chainFrom prev (n + 1) = (prev - 1) :: chainFrom (prev - 1) n := rfl

theorem countChain_chainFrom_break : ∀ (n : Nat) (prev d : Int) (tail : List Int),
    d ≠ prev - ((n : Int) + 1) →
    countChain prev (chainFrom prev n ++ d :: tail) = n := by
  intro n
  induction n with
  | zero =>
    intro prev d tail h
    norm_num at h
    simp [chainFrom, countChain_cons, h]
  | succ n ih =>
    intro prev d tail h
    rw [chainFrom_succ, List.cons_append, countChain_cons, if_pos rfl,
      ih (prev - 1) d tail (by push_cast at h ⊢; omega)]
    omega

theorem countChain_chainFrom : ∀ (n : Nat) (prev : Int),
    countChain prev (chainFrom prev n) = n := by
  intro n
  induction n with
  | zero => intro prev; rfl
  | succ n ih =>
    intro prev
    rw [chainFrom_succ, countChain_cons, if_pos rfl, ih]
    omega

/-- C2: when the most recent day passes the today-or-yesterday test, the
walk counts exactly the perfect one-day-gap chain prefix and stops at the
first break (whatever follows it), counts the whole sequence when it never
breaks, and in particular [today, today−1, today−2, today−4] yields 3. -/
theorem streak_walk_chain (today d : Int) (n : Nat) (d' : Int) (tail : List Int)
    (hd : d = today ∨ d = today - 1) (hbreak : d' ≠ d - ((n : Int) + 1)) :
    computeStreak today (d :: (chainFrom d n ++ d' :: tail)) = n + 1
    ∧ computeStreak today (d :: chainFrom d n) = n + 1
    ∧ computeStreak today [today, today - 1, today - 2, today - 4] = 3 := by
  refine ⟨?_, ?_, ?_⟩
  · rw [computeStreak, if_pos hd, countChain_chainFrom_break n d d' tail hbreak]
    omega
  · rw [computeStreak, if_pos hd, countChain_chainFrom]
    omega
  · have h4 : today - 4 ≠ today - 1 - 1 - 1 := by omega
    have h2 : today - 2 = today - 1 - 1 := by omega
    simp [computeStreak, countChain, h2, h4]

theorem streak_walk_chain_witness :
    ((0 : Int) = 0 ∨ (0 : Int) = 0 - 1)
    ∧ ((-3 : Int) ≠ 0 - (((1 : Nat) : Int) + 1))
    ∧ computeStreak 0 (0 :: (chainFrom 0 1 ++ (-3) :: [])) = 2 :=
  ⟨by decide, by decide, (streak_walk_chain 0 0 1 (-3) [] (by decide) (by decide)).1⟩

theorem totalDuration_eq (ws : List Workout) :
    totalDuration ws = (ws.map (fun w => w.durationMinutes.getD 0)).sum := by
  simp only [totalDuration, foldl_add_sum, zero_add]

theorem totalSets_eq (ws : List Workout) :
    totalSets ws =
      (ws.map (fun w => (w.workoutExercises.map (fun we => we.sets.length)).sum)).sum := by
  simp only [totalSets, foldl_add_sum, zero_add]

theorem totalReps_eq (ws : List Workout) :
    totalReps ws =
      (ws.map (fun w => (w.workoutExercises.map
        (fun we => (we.sets.map (fun s => s.repetitions)).sum)).sum)).sum := by
  simp only [totalReps, foldl_add_sum, zero_add]

theorem totalVolume_eq (ws : List Workout) :
    totalVolume ws =
      (ws.map (fun w => (w.workoutExercises.map
        (fun we => (we.sets.map (fun s => (s.repetitions : ℚ) * s.weight)).sum)).sum)).sum := by
  simp only [totalVolume, foldl_add_sum, zero_add]

theorem stepMax_eq :
    (fun (b : ℚ) (s : WorkoutSet) => if s.weight > b then s.weight else b) =
      fun b s => max b s.weight := by
  funext b s
  rcases le_or_lt s.weight b with h | h
  · rw [if_neg (not_lt.mpr h), max_eq_left h]
  · rw [if_pos h, max_eq_right h.le]

theorem foldl_max_weight (sets : List WorkoutSet) : ∀ a : ℚ,
    sets.foldl (fun b s => max b s.weight) a =
      (sets.map (fun s => s.weight)).foldl max a := by
  induction sets with
  | nil => intro a; rfl
  | cons s rest ih => intro a; simp only [List.foldl_cons, List.map_cons, ih]

theorem heaviest_inner (wes : List WorkoutExercise) : ∀ a : ℚ,
    wes.foldl (fun a we => we.sets.foldl (fun b s => max b s.weight) a) a =
      (catMap (fun we => we.sets.map (fun s => s.weight)) wes).foldl max a := by
  intro a
  simp only [foldl_max_weight]
  exact (foldl_catMap _ _ wes a).symm

theorem heaviestWeight_eq (ws : List Workout) :
    heaviestWeight ws = (allWeights ws).foldl max 0 := by
  unfold heaviestWeight allWeights
  simp only [stepMax_eq, heaviest_inner]
  exact (foldl_catMap _ _ ws 0).symm

theorem foldl_max_perm {l₁ l₂ : List ℚ} (h : l₁.Perm l₂) :
    ∀ b : ℚ, l₁.foldl max b = l₂.foldl max b := by
  induction h with
  | nil => intro b; rfl
  | cons x h ih => intro b; simp only [List.foldl_cons]; exact ih _
  | swap x y l => intro b; simp only [List.foldl_cons]; rw [max_assoc, max_comm y x, ← max_assoc]
  | trans h₁ h₂ ih₁ ih₂ => intro b; rw [ih₁ b, ih₂ b]

/-- C10: every aggregate other than the favorite-exercise tie-break is
invariant under permuting the list of workouts. -/
theorem stats_perm_invariant (ws ws' : List Workout) (h : ws.Perm ws') :
    totalWorkouts ws = totalWorkouts ws'
    ∧ totalDuration ws = totalDuration ws'
    ∧ totalExercisesUsed ws = totalExercisesUsed ws'
    ∧ totalSets ws = totalSets ws'
    ∧ totalReps ws = totalReps ws'
    ∧ totalVolume ws = totalVolume ws'
    ∧ heaviestWeight ws = heaviestWeight ws' := by
  refine ⟨h.length_eq, ?_, ?_, ?_, ?_, ?_, ?_⟩
  · rw [totalDuration_eq, totalDuration_eq]
    exact (h.map _).sum_eq
  · unfold totalExercisesUsed allExerciseIds
    exact ((catMap_perm _ h).dedup).length_eq
  · rw [totalSets_eq, totalSets_eq]
    exact (h.map _).sum_eq
  · rw [totalReps_eq, totalReps_eq]
    exact (h.map _).sum_eq
  · rw [totalVolume_eq, totalVolume_eq]
    exact (h.map _).sum_eq
  · rw [heaviestWeight_eq, heaviestWeight_eq]
    exact foldl_max_perm (catMap_perm _ h) 0

/-- C5: the spec's worked example — three workouts on DayKeys today, today,
today − 1 with sets (10, 50), (8, 55), (12, 80) yield totalSets 3,
totalReps 30, totalVolume 1900, heaviestWeight 80 and currentStreak 2. -/
theorem example_stats :
    totalSets exampleWorkouts = 3
    ∧ totalReps exampleWorkouts = 30
    ∧ totalVolume exampleWorkouts = 1900
    ∧ heaviestWeight exampleWorkouts = 80
    ∧ computeStreakFromWorkouts 0 (exampleWorkouts.map (fun w => w.startedAt)) = 2 := by
  refine ⟨by decide, by decide, ?_, ?_, by decide⟩
  · norm_num [totalVolume, exampleWorkouts]
  · norm_num [heaviestWeight, exampleWorkouts]

/-- C6: the empty workout history yields zero for every numeric statistic,
an empty day sequence, no last workout date, streak 0 and no favorite
exercise. -/
theorem empty_history_stats (lookup : String → Option ExerciseMeta) (today : Int) :
    me lookup today [] =
      { totalWorkouts := 0, currentStreak := 0, days := [], lastWorkoutDate := none,
        totalDuration := 0, totalExercisesUsed := 0, totalSets := 0, totalReps := 0,
        totalVolume := 0, heaviestWeight := 0, favoriteExercise := none } := rfl

theorem bumpFreq_keys : ∀ (m : List (String × Nat)) (k : String),
    (bumpFreq m k).map Prod.fst = addFirstSeen (m.map Prod.fst) k := by
  intro m
  induction m with
  | nil => intro k; simp [bumpFreq, addFirstSeen]
  | cons p rest ih =>
    intro k
    obtain ⟨a, c⟩ := p
    simp only [bumpFreq]
    split
    · rename_i heq
      subst heq
      simp [addFirstSeen]
    · rename_i hne
      simp only [List.map_cons, ih]
      simp only [addFirstSeen, List.mem_cons]
      by_cases hmem : k ∈ rest.map Prod.fst
      · simp [hmem]
      · have hne' : ¬ k = a := fun h => hne h.symm
        simp [hmem, hne']

theorem bumpFreq_lookupC : ∀ (m : List (String × Nat)) (k k' : String),
    lookupC (bumpFreq m k) k' = if k' = k then lookupC m k' + 1 else lookupC m k' := by
  intro m
  induction m with
  | nil =>
    intro k k'
    by_cases h : k' = k
    · subst h; simp [bumpFreq, lookupC]
    · simp [bumpFreq, lookupC, h, Ne.symm h]
  | cons p rest ih =>
    intro k k'
    obtain ⟨a, c⟩ := p
    by_cases hak : a = k
    · subst hak
      by_cases h : a = k'
      · subst h; simp [bumpFreq, lookupC]
      · simp [bumpFreq, lookupC, h, Ne.symm h]
    · by_cases h : a = k'
      · subst h
        simp [bumpFreq, lookupC, hak, Ne.symm hak, ih]
      · simp [bumpFreq, lookupC, hak, h, ih]

theorem foldl_bumpFreq_keys : ∀ (l : List String) (m : List (String × Nat)),
    (l.foldl bumpFreq m).map Prod.fst = l.foldl addFirstSeen (m.map Prod.fst) := by
  intro l
  induction l with
  | nil => intro m; rfl
  | cons k ks ih =>
    intro m
    rw [List.foldl_cons, List.foldl_cons, ih, bumpFreq_keys]

theorem foldl_bumpFreq_lookupC : ∀ (l : List String) (m : List (String × Nat)) (k : String),
    lookupC (l.foldl bumpFreq m) k = lookupC m k + l.count k := by
  intro l
  induction l with
  | nil => intro m k; simp
  | cons a as ih =>
    intro m k
    rw [List.foldl_cons, ih, bumpFreq_lookupC]
    by_cases h : k = a
    · subst h
      simp only [List.count_cons, beq_self_eq_true, if_pos, if_true]
      omega
    · have h' : ¬ a = k := fun hh => h hh.symm
      simp only [List.count_cons, beq_iff_eq, h, h', if_false]
      omega

theorem addFirstSeen_nodup (acc : List String) (k : String) (h : acc.Nodup) :
    (addFirstSeen acc k).Nodup := by
  unfold addFirstSeen
  split
  · exact h
  · rename_i hmem
    simp [List.nodup_append, h, hmem]

theorem foldl_addFirstSeen_nodup : ∀ (l : List String) (acc : List String),
    acc.Nodup → (l.foldl addFirstSeen acc).Nodup := by
  intro l
  induction l with
  | nil => intro acc h; exact h
  | cons k ks ih => intro acc h; exact ih _ (addFirstSeen_nodup acc k h)

theorem exerciseFrequency_eq_foldl (ws : List Workout) :
    exerciseFrequency ws = (allExerciseIds ws).foldl bumpFreq [] := by
  unfold exerciseFrequency allExerciseIds
  suffices h : ∀ (l : List Workout) (m : List (String × Nat)),
      l.foldl (fun m w => w.workoutExercises.foldl (fun m we => bumpFreq m we.exerciseId) m) m =
        (catMap (fun w => w.workoutExercises.map (fun we => we.exerciseId)) l).foldl bumpFreq m by
    exact h ws []
  intro l
  induction l with
  | nil => intro m; rfl
  | cons w rest ih =>
    intro m
    simp only [List.foldl_cons, catMap, List.foldl_append, List.foldl_map, ih]

theorem exerciseFrequency_keys (ws : List Workout) :
    (exerciseFrequency ws).map Prod.fst = firstSeenOrder ws := by
  rw [exerciseFrequency_eq_foldl, firstSeenOrder]
  exact foldl_bumpFreq_keys _ []

theorem exerciseFrequency_keys_nodup (ws : List Workout) :
    ((exerciseFrequency ws).map Prod.fst).Nodup := by
  rw [exerciseFrequency_keys, firstSeenOrder]
  exact foldl_addFirstSeen_nodup _ _ (by simp)

theorem exerciseFrequency_lookupC (ws : List Workout) (k : String) :
    lookupC (exerciseFrequency ws) k = exerciseOccurrences ws k := by
  rw [exerciseFrequency_eq_foldl, foldl_bumpFreq_lookupC]
  simp [exerciseOccurrences, lookupC]

theorem lookupC_of_mem : ∀ (m : List (String × Nat)) (k : String) (c : Nat),
    (m.map Prod.fst).Nodup → (k, c) ∈ m → lookupC m k = c := by
  intro m
  induction m with
  | nil => intro k c _ hm; simp at hm
  | cons p rest ih =>
    intro k c h hm
    obtain ⟨a, b⟩ := p
    simp only [List.map_cons, List.nodup_cons] at h
    rcases List.mem_cons.mp hm with heq | hm'
    · rw [Prod.mk.injEq] at heq
      obtain ⟨rfl, rfl⟩ := heq
      simp [lookupC]
    · have hne : a ≠ k := by
        intro hak
        subst hak
        exact h.1 (List.mem_map.mpr ⟨(a, c), hm', rfl⟩)
      simp [lookupC, hne, ih k c h.2 hm']

theorem exerciseFrequency_counts (ws : List Workout) :
    ∀ p ∈ exerciseFrequency ws, p.2 = exerciseOccurrences ws p.1 := by
  intro p hp
  have hl : lookupC (exerciseFrequency ws) p.1 = p.2 :=
    lookupC_of_mem _ p.1 p.2 (exerciseFrequency_keys_nodup ws) (by simpa using hp)
  rw [← hl, exerciseFrequency_lookupC]

theorem foldl_stepFav_spec : ∀ (l : List (String × Nat)) (a : Option String × Nat),
    (l.foldl stepFav a = a ∧ ∀ p ∈ l, p.2 ≤ a.2) ∨
    (∃ k c l₁ l₂, l = l₁ ++ (k, c) :: l₂ ∧ l.foldl stepFav a = (some k, c) ∧
      a.2 < c ∧ (∀ p ∈ l₁, p.2 < c) ∧ (∀ p ∈ l₂, p.2 ≤ c)) := by
  intro l
  induction l with
  | nil => intro a; left; exact ⟨rfl, by simp⟩
  | cons p rest ih =>
    intro a
    obtain ⟨k₀, c₀⟩ := p
    rw [List.foldl_cons]
    by_cases h : c₀ > a.2
    · have hstep : stepFav a (k₀, c₀) = (some k₀, c₀) := by simp [stepFav, h]
      rw [hstep]
      rcases ih (some k₀, c₀) with ⟨heq, hle⟩ | ⟨k, c, l₁, l₂, hsplit, hres, hlt, hl₁, hl₂⟩
      · right
        exact ⟨k₀, c₀, [], rest, by simp, heq, h, by simp, hle⟩
      · right
        refine ⟨k, c, (k₀, c₀) :: l₁, l₂, by rw [hsplit, List.cons_append], hres, lt_trans h hlt, ?_, hl₂⟩
        intro q hq
        rcases List.mem_cons.mp hq with rfl | hq'
        · exact hlt
        · exact hl₁ q hq'
    · have hstep : stepFav a (k₀, c₀) = a := by simp [stepFav, h]
      rw [hstep]
      rcases ih a with ⟨heq, hle⟩ | ⟨k, c, l₁, l₂, hsplit, hres, hlt, hl₁, hl₂⟩
      · left
        refine ⟨heq, ?_⟩
        intro q hq
        rcases List.mem_cons.mp hq with rfl | hq'
        · exact not_lt.mp h
        · exact hle q hq'
      · right
        refine ⟨k, c, (k₀, c₀) :: l₁, l₂, by rw [hsplit, List.cons_append], hres, hlt, ?_, hl₂⟩
        intro q hq
        rcases List.mem_cons.mp hq with rfl | hq'
        · exact lt_of_le_of_lt (not_lt.mp h) hlt
        · exact hl₁ q hq'

/-- C4: when a favorite exercise identifier is produced, its frequency is
the count of WorkoutExerciseRecords referencing it (one per record, not
per set), every identifier encountered before it in the pass has a
strictly smaller frequency and every identifier encountered after it has
a frequency no larger — so the strictly highest frequency wins, with ties
broken in favor of the identifier first encountered in the
most-recent-workout-first pass; moreover the frequency map lists the
identifiers in first-encounter order and each entry carries its
per-record occurrence count. -/
theorem favorite_first_strict_max (ws : List Workout) (k : String)
    (h : favoriteExerciseId ws = some k) :
    (∃ l₁ l₂, exerciseFrequency ws = l₁ ++ (k, exerciseOccurrences ws k) :: l₂
      ∧ (∀ p ∈ l₁, p.2 < exerciseOccurrences ws k)
      ∧ (∀ p ∈ l₂, p.2 ≤ exerciseOccurrences ws k))
    ∧ (exerciseFrequency ws).map Prod.fst = firstSeenOrder ws
    ∧ (∀ p ∈ exerciseFrequency ws, p.2 = exerciseOccurrences ws p.1) := by
  refine ⟨?_, exerciseFrequency_keys ws, exerciseFrequency_counts ws⟩
  unfold favoriteExerciseId selectFavorite at h
  rcases foldl_stepFav_spec (exerciseFrequency ws) (none, 0) with
    ⟨heq, -⟩ | ⟨k', c, l₁, l₂, hsplit, hres, -, hl₁, hl₂⟩
  · rw [heq] at h
    simp at h
  · rw [hres] at h
    have hk : k' = k := by simpa using h
    have hc : c = exerciseOccurrences ws k := by
      have hmem : (k', c) ∈ exerciseFrequency ws := by
        rw [hsplit]
        exact List.mem_append.mpr (Or.inr (List.mem_cons_self _ _))
      have h0 := exerciseFrequency_counts ws (k', c) hmem
      rw [hk] at h0
      exact h0
    rw [hk, hc] at hsplit
    rw [hc] at hl₁ hl₂
    exact ⟨l₁, l₂, hsplit, hl₁, hl₂⟩

theorem favorite_first_strict_max_witness :
    favoriteExerciseId exampleWorkouts = some "bench"
    ∧ (exerciseFrequency exampleWorkouts).map Prod.fst = firstSeenOrder exampleWorkouts :=
  ⟨by decide, (favorite_first_strict_max exampleWorkouts "bench" (by decide)).2.1⟩

/-- C9: a history that does contain workouts, all of which have an empty
exercise list, leaves the frequency map empty, so no favorite exercise
identifier is selected and the favorite exercise is reported absent. -/
theorem allExerciseIds_nil : ∀ (ws : List Workout),
    (∀ w ∈ ws, w.workoutExercises = []) → allExerciseIds ws = [] := by
  intro ws
  induction ws with
  | nil => intro _; rfl
  | cons w rest ih =>
    intro hemp
    have hw : w.workoutExercises = [] := hemp w (List.mem_cons_self _ _)
    have hr : allExerciseIds rest = [] :=
      ih (fun w' hw' => hemp w' (List.mem_cons_of_mem _ hw'))
    simp only [allExerciseIds, catMap, hw, List.map_nil, List.nil_append] at hr ⊢
    exact hr

theorem no_exercises_no_favorite (lookup : String → Option ExerciseMeta)
    (ws : List Workout) (hne : ws ≠ [])
    (hemp : ∀ w ∈ ws, w.workoutExercises = []) :
    favoriteExerciseId ws = none ∧ favoriteExercise lookup ws = none := by
  have hids : allExerciseIds ws = [] := allExerciseIds_nil ws hemp
  have hfreq : exerciseFrequency ws = [] := by
    rw [exerciseFrequency_eq_foldl, hids]
    rfl
  have hid : favoriteExerciseId ws = none := by
    unfold favoriteExerciseId selectFavorite
    rw [hfreq]
    rfl
  refine ⟨hid, ?_⟩
  unfold favoriteExercise
  rw [hid]

theorem no_exercises_no_favorite_witness :
    ([⟨⟨0, 0⟩, none, []⟩] : List Workout) ≠ []
    ∧ (∀ w ∈ ([⟨⟨0, 0⟩, none, []⟩] : List Workout), w.workoutExercises = [])
    ∧ favoriteExerciseId [⟨⟨0, 0⟩, none, []⟩] = none :=
  ⟨by decide, by decide,
    (no_exercises_no_favorite (fun _ => none) [⟨⟨0, 0⟩, none, []⟩]
      (by decide) (by decide)).1⟩

/-- C7: when the metadata lookup finds nothing for the determined favorite
identifier, the favorite exercise is reported absent while every other
field of the result is computed exactly as with any other lookup — the
computation does not fail. -/
theorem favorite_lookup_missing (lookup : String → Option ExerciseMeta)
    (today : Int) (ws : List Workout) (k : String)
    (hfav : favoriteExerciseId ws = some k) (hmiss : lookup k = none) :
    (me lookup today ws).favoriteExercise = none
    ∧ ∀ lookup' : String → Option ExerciseMeta,
        (me lookup today ws).totalWorkouts = (me lookup' today ws).totalWorkouts
        ∧ (me lookup today ws).currentStreak = (me lookup' today ws).currentStreak
        ∧ (me lookup today ws).days = (me lookup' today ws).days
        ∧ (me lookup today ws).lastWorkoutDate = (me lookup' today ws).lastWorkoutDate
        ∧ (me lookup today ws).totalDuration = (me lookup' today ws).totalDuration
        ∧ (me lookup today ws).totalExercisesUsed = (me lookup' today ws).totalExercisesUsed
        ∧ (me lookup today ws).totalSets = (me lookup' today ws).totalSets
        ∧ (me lookup today ws).totalReps = (me lookup' today ws).totalReps
        ∧ (me lookup today ws).totalVolume = (me lookup' today ws).totalVolume
        ∧ (me lookup today ws).heaviestWeight = (me lookup' today ws).heaviestWeight := by
  constructor
  · show favoriteExercise lookup ws = none
    unfold favoriteExercise
    rw [hfav]
    simp [hmiss]
  · intro lookup'
    exact ⟨rfl, rfl, rfl, rfl, rfl, rfl, rfl, rfl, rfl, rfl⟩

theorem favorite_lookup_missing_witness :
    favoriteExerciseId [⟨⟨0, 0⟩, some 20, [⟨"a", [⟨10, 50⟩]⟩]⟩] = some "a"
    ∧ ((fun _ => none) : String → Option ExerciseMeta) "a" = none
    ∧ (me (fun _ => none) 0 [⟨⟨0, 0⟩, some 20, [⟨"a", [⟨10, 50⟩]⟩]⟩]).favoriteExercise = none :=
  ⟨by decide, rfl,
    (favorite_lookup_missing (fun _ => none) 0 _ "a" (by decide) rfl).1⟩

theorem totalVolume_eq_map (ws : List Workout) :
    totalVolume ws = (ws.map workoutVolume).sum := by
  rw [totalVolume_eq]
  rfl

theorem exVolume_of_exPermEq {we we' : WorkoutExercise} (h : exPermEq we we') :
    exVolume we = exVolume we' :=
  ((h.2.map _).sum_eq)

theorem map_exVolume_of_forall₂ : ∀ {l₁ l₂ : List WorkoutExercise},
    List.Forall₂ exPermEq l₁ l₂ → l₁.map exVolume = l₂.map exVolume := by
  intro l₁ l₂ hf
  induction hf with
  | nil => rfl
  | cons h₁ h₂ ih => simp only [List.map_cons, exVolume_of_exPermEq h₁, ih]

theorem workoutVolume_of_workoutPermEq {w w' : Workout} (h : workoutPermEq w w') :
    workoutVolume w = workoutVolume w' := by
  obtain ⟨-, -, mid, hf, hp⟩ := h
  unfold workoutVolume
  rw [map_exVolume_of_forall₂ hf]
  exact ((hp.map _).sum_eq)

/-- C8: totalVolume is unchanged when, inside each workout, the exercise
records are permuted and each record's sets are permuted. -/
theorem totalVolume_reorder_invariant (ws ws' : List Workout)
    (h : List.Forall₂ workoutPermEq ws ws') :
    totalVolume ws = totalVolume ws' := by
  rw [totalVolume_eq_map, totalVolume_eq_map]
  have h1 : ws.map workoutVolume = ws'.map workoutVolume := by
    induction h with
    | nil => rfl
    | cons h₁ h₂ ih => simp only [List.map_cons, workoutVolume_of_workoutPermEq h₁, ih]
  rw [h1]

theorem totalVolume_reorder_invariant_witness :
    List.Forall₂ workoutPermEq
      [⟨⟨0, 0⟩, some 10, [⟨"a", [⟨2, 3⟩, ⟨4, 5⟩]⟩, ⟨"b", [⟨1, 7⟩]⟩]⟩]
      [⟨⟨0, 0⟩, some 10, [⟨"b", [⟨1, 7⟩]⟩, ⟨"a", [⟨4, 5⟩, ⟨2, 3⟩]⟩]⟩]
    ∧ totalVolume [⟨⟨0, 0⟩, some 10, [⟨"a", [⟨2, 3⟩, ⟨4, 5⟩]⟩, ⟨"b", [⟨1, 7⟩]⟩]⟩]
      = totalVolume [⟨⟨0, 0⟩, some 10, [⟨"b", [⟨1, 7⟩]⟩, ⟨"a", [⟨4, 5⟩, ⟨2, 3⟩]⟩]⟩] := by
  have h : List.Forall₂ workoutPermEq
      [⟨⟨0, 0⟩, some 10, [⟨"a", [⟨2, 3⟩, ⟨4, 5⟩]⟩, ⟨"b", [⟨1, 7⟩]⟩]⟩]
      [⟨⟨0, 0⟩, some 10, [⟨"b", [⟨1, 7⟩]⟩, ⟨"a", [⟨4, 5⟩, ⟨2, 3⟩]⟩]⟩] := by
    refine List.Forall₂.cons ?_ List.Forall₂.nil
    unfold workoutPermEq
    refine ⟨rfl, rfl, [⟨"a", [⟨4, 5⟩, ⟨2, 3⟩]⟩, ⟨"b", [⟨1, 7⟩]⟩], ?_, by decide⟩
    refine List.Forall₂.cons ?_ (List.Forall₂.cons ?_ List.Forall₂.nil)
    · unfold exPermEq
      exact ⟨rfl, by decide⟩
    · unfold exPermEq
      exact ⟨rfl, List.Perm.refl _⟩
  exact ⟨h, totalVolume_reorder_invariant _ _ h⟩

theorem stats_perm_invariant_witness :
    List.Perm
      ([⟨⟨0, 0⟩, some 10, [⟨"a", [⟨2, 3⟩]⟩]⟩, ⟨⟨1, 0⟩, some 5, [⟨"b", [⟨1, 7⟩]⟩]⟩] : List Workout)
      [⟨⟨1, 0⟩, some 5, [⟨"b", [⟨1, 7⟩]⟩]⟩, ⟨⟨0, 0⟩, some 10, [⟨"a", [⟨2, 3⟩]⟩]⟩]
    ∧ (totalWorkouts [⟨⟨0, 0⟩, some 10, [⟨"a", [⟨2, 3⟩]⟩]⟩, ⟨⟨1, 0⟩, some 5, [⟨"b", [⟨1, 7⟩]⟩]⟩]
        = totalWorkouts [⟨⟨1, 0⟩, some 5, [⟨"b", [⟨1, 7⟩]⟩]⟩, ⟨⟨0, 0⟩, some 10, [⟨"a", [⟨2, 3⟩]⟩]⟩]
      ∧ totalDuration [⟨⟨0, 0⟩, some 10, [⟨"a", [⟨2, 3⟩]⟩]⟩, ⟨⟨1, 0⟩, some 5, [⟨"b", [⟨1, 7⟩]⟩]⟩]
        = totalDuration [⟨⟨1, 0⟩, some 5, [⟨"b", [⟨1, 7⟩]⟩]⟩, ⟨⟨0, 0⟩, some 10, [⟨"a", [⟨2, 3⟩]⟩]⟩]
      ∧ totalExercisesUsed [⟨⟨0, 0⟩, some 10, [⟨"a", [⟨2, 3⟩]⟩]⟩, ⟨⟨1, 0⟩, some 5, [⟨"b", [⟨1, 7⟩]⟩]⟩]
        = totalExercisesUsed [⟨⟨1, 0⟩, some 5, [⟨"b", [⟨1, 7⟩]⟩]⟩, ⟨⟨0, 0⟩, some 10, [⟨"a", [⟨2, 3⟩]⟩]⟩]
      ∧ totalSets [⟨⟨0, 0⟩, some 10, [⟨"a", [⟨2, 3⟩]⟩]⟩, ⟨⟨1, 0⟩, some 5, [⟨"b", [⟨1, 7⟩]⟩]⟩]
        = totalSets [⟨⟨1, 0⟩, some 5, [⟨"b", [⟨1, 7⟩]⟩]⟩, ⟨⟨0, 0⟩, some 10, [⟨"a", [⟨2, 3⟩]⟩]⟩]
      ∧ totalReps [⟨⟨0, 0⟩, some 10, [⟨"a", [⟨2, 3⟩]⟩]⟩, ⟨⟨1, 0⟩, some 5, [⟨"b", [⟨1, 7⟩]⟩]⟩]
        = totalReps [⟨⟨1, 0⟩, some 5, [⟨"b", [⟨1, 7⟩]⟩]⟩, ⟨⟨0, 0⟩, some 10, [⟨"a", [⟨2, 3⟩]⟩]⟩]
      ∧ totalVolume [⟨⟨0, 0⟩, some 10, [⟨"a", [⟨2, 3⟩]⟩]⟩, ⟨⟨1, 0⟩, some 5, [⟨"b", [⟨1, 7⟩]⟩]⟩]
        = totalVolume [⟨⟨1, 0⟩, some 5, [⟨"b", [⟨1, 7⟩]⟩]⟩, ⟨⟨0, 0⟩, some 10, [⟨"a", [⟨2, 3⟩]⟩]⟩]
      ∧ heaviestWeight [⟨⟨0, 0⟩, some 10, [⟨"a", [⟨2, 3⟩]⟩]⟩, ⟨⟨1, 0⟩, some 5, [⟨"b", [⟨1, 7⟩]⟩]⟩]
        = heaviestWeight [⟨⟨1, 0⟩, some 5, [⟨"b", [⟨1, 7⟩]⟩]⟩, ⟨⟨0, 0⟩, some 10, [⟨"a", [⟨2, 3⟩]⟩]⟩]) :=
  ⟨by decide, stats_perm_invariant _ _ (by decide)⟩

end ProgressPoint
